import Mathlib

/-!
Shallow embedding of the signing and wire-encoding pipeline of the
KintoXYZ/hyperliquid TypeScript SDK (src/utils/signing.ts, re-exported from
src/index.ts, and src/rest/exchange.ts).

Modelling conventions:
* JavaScript plain objects are association lists `JObj` of string keys and
  `JVal` values; property assignment (`o.k = v`) updates the first binding of
  the key in place, or appends a new binding, exactly as JS preserves
  insertion order.
* Byte buffers (`Uint8Array`) are `List Nat` with entries below 256.
* The msgpack `encode` of the external `@msgpack/msgpack` library and the
  `keccak256` of viem are external primitives; functions that use them take
  them as parameters.
* JS `Number` is idealized as `ℚ` (exact decimal arithmetic); `toFixed` is
  modelled for the fixed-point range (|x| < 1e21, where ECMA-262 specifies
  plain decimal output) and `parseFloat` of such a decimal string is read
  back exactly.  The IEEE-754-specific behaviour of `floatToWire` itself is
  out of scope here; the definition is used only structurally.
* `parseInt(s, 16)` returning `NaN` is modelled as `Option.none`.
-/

namespace HL

/-- JavaScript values as they appear in the action objects of this SDK. -/
inductive JVal where
  | str : String → JVal
  | num : Int → JVal
  | bool : Bool → JVal
  | obj : List (String × JVal) → JVal
  | arr : List JVal → JVal

/-- A JavaScript plain object: ordered association list of fields. -/
abbrev JObj := List (String × JVal)

/-- Property read `o[k]`: first binding of the key, if any. -/
def lookupField : JObj → String → Option JVal
  | [], _ => none
  | p :: rest, k => if p.1 = k then some p.2 else lookupField rest k

/-- Property assignment `o[k] = v`: update the (unique) existing binding in
place, else append a new binding, as JS objects preserve insertion order. -/
def setField : JObj → String → JVal → JObj
  | [], k, v => [(k, v)]
  | p :: rest, k, v => if p.1 = k then (k, v) :: rest else p :: setField rest k v

/-- The keys of an object, in insertion order. -/
def objKeys (o : JObj) : List String := o.map (fun p => p.1)

/-- Errors thrown by the pipeline (`throw new Error(...)` sites in the
source, tagged by site and carrying the interpolated data). -/
inductive JsError where
  | floatToWireRounding : ℚ → JsError
  | invalidOrderType : JsError
  | unknownAsset : String → JsError
deriving DecidableEq

/-- JS `String.prototype.slice(a, b)` for `0 ≤ a ≤ b`: the code units in
positions `[a, min b len)`. -/
def jsSlice (s : String) (a b : Nat) : String :=
  String.mk ((s.toList.drop a).take (b - a))

/-- Value of a hexadecimal digit character, if it is one. -/
def hexVal? (c : Char) : Option Nat :=
  if '0' ≤ c ∧ c ≤ '9' then some (c.toNat - 48)
  else if 'a' ≤ c ∧ c ≤ 'f' then some (c.toNat - 87)
  else if 'A' ≤ c ∧ c ≤ 'F' then some (c.toNat - 55)
  else none

/-- JS `parseInt(s, 16)` restricted to the bare-hex-digit inputs this SDK
produces: parse the leading run of hex digits; `NaN` (here `none`) if there
is none. -/
def parseIntHex (s : String) : Option Nat :=
  let ds := s.toList.takeWhile (fun c => (hexVal? c).isSome)
  if ds.isEmpty then none
  else some (ds.foldl (fun a c => a * 16 + ((hexVal? c).getD 0)) 0)

/-- The `{r, s, v}` record produced by `splitSig`; `v = none` models `NaN`
(the value of `parseInt` on an empty slice). -/
structure Signature where
  r : String
  s : String
  v : Option Nat
deriving DecidableEq

/-- `splitSig` from src/index.ts:301-306: slice the hex signature string with
no validation whatsoever. -/
def splitSig (sig : String) : Signature :=
  { r := "0x" ++ jsSlice sig 2 66
  , s := "0x" ++ jsSlice sig 66 130
  , v := parseIntHex (jsSlice sig 130 132) }

/-- Lower-case hex digit character for `n < 16`. -/
def hexDigitChar (n : Nat) : Char :=
  if n < 10 then Char.ofNat (48 + n) else Char.ofNat (87 + n)

/-- The two hex characters of one byte. -/
def byteHexPair (b : Nat) : List Char :=
  [hexDigitChar (b / 16 % 16), hexDigitChar (b % 16)]

/-- Lower-case hex rendering of a byte sequence (as viem signers emit). -/
def bytesToHex (bs : List Nat) : String :=
  String.mk (bs.flatMap byteHexPair)

/-- ECMA-262 rounding used by `toFixed`: the integer `n` minimizing the
distance of `n / 10^f` to `x`, ties to the larger `n`; for negative `x` the
algorithm runs on `-x` and re-attaches the sign, so ties go away from zero. -/
def jsFixedRound (y : ℚ) : Int :=
  if y < 0 then -(Int.floor (-y + 1/2)) else Int.floor (y + 1/2)

/-- Left-pad a digit string with zeros to 8 characters. -/
def padZeros8 (s : String) : String :=
  String.mk (List.replicate (8 - s.length) '0') ++ s

/-- JS `x.toFixed(8)` in the fixed-point range: sign taken from `x` itself
(so a negative `x` rounding to zero still prints a leading minus), then the
rounded integer split into integer part and 8 zero-padded fraction digits. -/
def jsToFixed8 (x : ℚ) : String :=
  let n := jsFixedRound (x * 100000000)
  let sgn := if x < 0 then "-" else ""
  let m := n.natAbs
  sgn ++ toString (m / 100000000) ++ "." ++ padZeros8 (toString (m % 100000000))

/-- Effect of the regex replace `/\.?0+$/ → ""` on a `toFixed` output: drop
the trailing run of `0` characters, then one `.` if it directly preceded
that run. -/
def stripWire (s : String) : String :=
  let cs := s.toList.reverse.dropWhile (fun c => c = '0')
  let cs := if cs.head? = some '.' then cs.tail else cs
  String.mk cs.reverse

/-- `floatToWire` from src/index.ts:308-316: round to 8 fractional digits,
throw if reading the rounded string back differs from `x` by at least
`1e-12`, else strip redundant formatting and normalize `"-0"` to `"0"`.
JS `Number` is idealized as `ℚ` here (see module comment); this definition
is used structurally by the order encoders. -/
def floatToWire (x : ℚ) : Except JsError String :=
  let rounded := jsToFixed8 x
  let roundedVal : ℚ := (jsFixedRound (x * 100000000) : ℚ) / 100000000
  if (1 : ℚ) / 1000000000000 ≤ |roundedVal - x| then
    .error (.floatToWireRounding x)
  else
    let normalized := stripWire rounded
    let normalized := if normalized = "-0" then "0" else normalized
    .ok normalized

/-- The `{ tif }` sub-object of a limit order type. -/
structure LimitOrderType where
  tif : String
deriving DecidableEq

/-- The trigger sub-object as supplied by the caller; `triggerPx` is numeric
(the source applies `Number(...)` before canonicalizing). -/
structure TriggerOrderType where
  isMarket : Bool
  triggerPx : ℚ
  tpsl : String
deriving DecidableEq

/-- An order type as supplied by the caller: an object that may carry a
`limit` and/or a `trigger` property (absence modelled as `none`; a present
sub-object is always truthy in JS). -/
structure OrderType where
  limit : Option LimitOrderType := none
  trigger : Option TriggerOrderType := none
deriving DecidableEq

/-- The trigger sub-object on the wire: `triggerPx` re-encoded as a string. -/
structure TriggerOrderTypeWire where
  isMarket : Bool
  triggerPx : String
  tpsl : String
deriving DecidableEq

/-- An order type on the wire. -/
structure OrderTypeWire where
  limit : Option LimitOrderType := none
  trigger : Option TriggerOrderTypeWire := none
deriving DecidableEq

/-- `orderTypeToWire` from src/index.ts:161-174: pass a `limit` sub-object
through unchanged, re-encode a `trigger`'s price via `floatToWire`, throw
`Error('Invalid order type')` on any other shape. -/
def orderTypeToWire (orderType : OrderType) : Except JsError OrderTypeWire :=
  match orderType.limit with
  | some l => .ok { limit := some l }
  | none =>
    match orderType.trigger with
    | some t =>
      (floatToWire t.triggerPx).map fun px =>
        { trigger := some { isMarket := t.isMarket, triggerPx := px, tpsl := t.tpsl } }
    | none => .error .invalidOrderType

/-- Embed an order type on the wire into a JS value, for placement in the
`t` field of a wire order object. -/
def orderTypeWireToJVal (t : OrderTypeWire) : JVal :=
  match t.limit with
  | some l => .obj [("limit", .obj [("tif", .str l.tif)])]
  | none =>
    match t.trigger with
    | some tr =>
      .obj [("trigger", .obj [("isMarket", .bool tr.isMarket),
                              ("triggerPx", .str tr.triggerPx),
                              ("tpsl", .str tr.tpsl)])]
    | none => .obj []

/-- An order as supplied to `orderToWire` (human units). -/
structure Order where
  coin : String
  is_buy : Bool
  limit_px : ℚ
  sz : ℚ
  reduce_only : Bool
  order_type : OrderType
  cloid : Option String := none

/-- `orderToWire` from src/index.ts:338-351: build the `{a,b,p,s,r,t}` wire
object (evaluation order of the object literal: `p` before `s` before `t`,
so the first canonicalization failure propagates), then add a `c` binding
only when `cloid` is present. -/
def orderToWire (order : Order) (asset : Nat) : Except JsError JObj := do
  let p ← floatToWire order.limit_px
  let s ← floatToWire order.sz
  let t ← orderTypeToWire order.order_type
  let orderWire : JObj :=
    [("a", .num asset), ("b", .bool order.is_buy), ("p", .str p),
     ("s", .str s), ("r", .bool order.reduce_only), ("t", orderTypeWireToJVal t)]
  match order.cloid with
  | some c => return orderWire ++ [("c", .str c)]
  | none => return orderWire

/-- `orderWireToAction` from src/index.ts:353-360: `grouping` is a JS default
parameter (`none` models an absent / `undefined` argument, defaulted to
`"na"`), and the `builder` spread adds a binding only when present. -/
def orderWireToAction (orders : List JObj) (grouping : Option String)
    (builder : Option JObj) : JObj :=
  [("type", .str "order"),
   ("orders", .arr (orders.map .obj)),
   ("grouping", .str (grouping.getD "na"))]
  ++ (match builder with
      | some b => [("builder", .obj b)]
      | none => [])

/-- In-range `TypedArray.set` / sequential `DataView` writes on a byte
buffer: overwrite `src.length` bytes starting at `off`. -/
def writeBytes (buf : List Nat) (off : Nat) (src : List Nat) : List Nat :=
  buf.take off ++ src ++ buf.drop (off + src.length)

/-- The 8 bytes written by `DataView.setBigUint64(_, v, false)`: big-endian,
low 64 bits of `v`. -/
def be8 (v : Nat) : List Nat :=
  [v / 2 ^ 56 % 256, v / 2 ^ 48 % 256, v / 2 ^ 40 % 256, v / 2 ^ 32 % 256,
   v / 2 ^ 24 % 256, v / 2 ^ 16 % 256, v / 2 ^ 8 % 256, v % 256]

/-- The big-endian value of a byte sequence (most significant byte first). -/
def beVal (bs : List Nat) : Nat :=
  bs.foldl (fun a b => a * 256 + b) 0

/-- `actionHash` from src/index.ts:180-194, parametric in the external
msgpack `encode` and viem `keccak256` (the digest is kept as 32 raw bytes;
viem renders it in hex).  A `Uint8Array` of zeros is allocated, the msgpack
bytes are copied at offset 0, the nonce is written as 8 big-endian bytes
after them, then the vault marker byte and, when present, the vault
address bytes (`hexToBytes` of the 20-byte address). -/
def actionHash {α : Type} (encode : α → List Nat) (keccak256 : List Nat → List Nat)
    (action : α) (vaultAddress : Option (List Nat)) (nonce : Nat) : List Nat :=
  let msgPackBytes := encode action
  let additionalBytesLength := if vaultAddress.isNone then 9 else 29
  let data := List.replicate (msgPackBytes.length + additionalBytesLength) 0
  let data := writeBytes data 0 msgPackBytes
  let data := writeBytes data msgPackBytes.length (be8 nonce)
  let data :=
    match vaultAddress with
    | none => writeBytes data (msgPackBytes.length + 8) [0]
    | some va =>
      writeBytes (writeBytes data (msgPackBytes.length + 8) [1])
        (msgPackBytes.length + 9) va
  keccak256 data

/-- An EIP-712 domain as used by this SDK. -/
structure EIP712Domain where
  name : String
  version : String
  chainId : Nat
  verifyingContract : String
deriving DecidableEq

/-- `phantomDomain` from src/index.ts:147-152. -/
def phantomDomain : EIP712Domain :=
  { name := "Exchange"
  , version := "1"
  , chainId := 1337
  , verifyingContract := "0x0000000000000000000000000000000000000000" }

/-- `agentTypes` from src/index.ts:154-159: field-name/field-type schema per
declared type. -/
def agentTypes : List (String × List (String × String)) :=
  [("Agent", [("source", "string"), ("connectionId", "bytes32")])]

/-- The phantom-agent message; `connectionId` carries the 32-byte digest. -/
structure PhantomAgent where
  source : String
  connectionId : List Nat
deriving DecidableEq

/-- `constructPhantomAgent` from src/index.ts:196-198. -/
def constructPhantomAgent (hash : List Nat) (isMainnet : Bool) : PhantomAgent :=
  { source := if isMainnet then "a" else "b", connectionId := hash }

/-- The typed-data request an L1 signing call hands to the account's
`signTypedData` capability. -/
structure AgentSignRequest where
  domain : EIP712Domain
  types : List (String × List (String × String))
  primaryType : String
  message : PhantomAgent
deriving DecidableEq

/-- The `data` object built by `signL1Action` (src/index.ts:200-216) and
passed to `signInner`. -/
def signL1ActionData {α : Type} (encode : α → List Nat)
    (keccak256 : List Nat → List Nat) (action : α)
    (activePool : Option (List Nat)) (nonce : Nat) (isMainnet : Bool) :
    AgentSignRequest :=
  let hash := actionHash encode keccak256 action activePool nonce
  let phantomAgent := constructPhantomAgent hash isMainnet
  { domain := phantomDomain
  , types := agentTypes
  , primaryType := "Agent"
  , message := phantomAgent }

/-- `signL1Action` composed with `signInner` (src/index.ts:288-299): invoke
the account's typed-data capability on the request and split the raw hex
signature. -/
def signL1Action {α : Type} (signTypedData : AgentSignRequest → String)
    (encode : α → List Nat) (keccak256 : List Nat → List Nat) (action : α)
    (activePool : Option (List Nat)) (nonce : Nat) (isMainnet : Bool) :
    Signature :=
  splitSig (signTypedData (signL1ActionData encode keccak256 action activePool nonce isMainnet))

/-- The typed-data request a user-signed action hands to `signTypedData`:
the `types` map has the single entry `primaryType ↦ payloadTypes`. -/
structure UserSignRequest where
  domain : EIP712Domain
  types : List (String × List (String × String))
  primaryType : String
  message : JObj

/-- `signUserSignedAction` from src/index.ts:218-241, up to the signing
capability: it mutates the action in place (`signatureChainId` is forced to
`'0x66eee'`, `hyperliquidChain` to the network name) and builds the typed
data whose message is that same mutated object.  Returns the mutated action
together with the request handed to `signInner`. -/
def signUserSignedActionData (action : JObj)
    (payloadTypes : List (String × String)) (primaryType : String)
    (isMainnet : Bool) : JObj × UserSignRequest :=
  let action := setField action "signatureChainId" (.str "0x66eee")
  let action := setField action "hyperliquidChain"
    (.str (if isMainnet then "Mainnet" else "Testnet"))
  ( action
  , { domain :=
        { name := "HyperliquidSignTransaction"
        , version := "1"
        , chainId := 421614
        , verifyingContract := "0x0000000000000000000000000000000000000000" }
    , types := [(primaryType, payloadTypes)]
    , primaryType := primaryType
    , message := action } )

/-- The payload type schema `signUsdTransferAction` declares
(src/index.ts:243-256). -/
def usdSendPayloadTypes : List (String × String) :=
  [("hyperliquidChain", "string"), ("destination", "string"),
   ("amount", "string"), ("time", "uint64")]

/-- `signUsdTransferAction` from src/index.ts:243-256, up to the signing
capability. -/
def signUsdTransferActionData (action : JObj) (isMainnet : Bool) :
    JObj × UserSignRequest :=
  signUserSignedActionData action usdSendPayloadTypes
    "HyperliquidTransaction:UsdSend" isMainnet

/-- Modelled from the spec: the `ExchangeType.USD_SEND` constant lives in
src/types/constants.ts, which is not part of the sources here; §3 of the
spec names the action variant `usdSend`. -/
def usdSendType : String := "usdSend"

/-- What `usdTransfer` submits: the (mutated) action object, the payload
nonce (`action.time` read back from that object), and the typed-data
request that was signed. -/
structure UsdTransferPayload where
  action : JObj
  nonce : Option JVal
  request : UserSignRequest

/-- `usdTransfer` from src/rest/exchange.ts:254-272.  `isMainnet` is the
instance's `IS_MAINNET` flag (`!testnet`); `now` is the `Date.now()` sample;
`amountStr` is `amount.toString()`.  The action object built here is passed
by reference into the signing path, which mutates it before the payload is
assembled, and the payload's nonce is `action.time` read after signing. -/
def usdTransfer (isMainnet : Bool) (destination : String) (amountStr : String)
    (now : Int) : UsdTransferPayload :=
  let action : JObj :=
    [("type", .str usdSendType),
     ("hyperliquidChain", .str (if isMainnet then "Mainnet" else "Testnet")),
     ("signatureChainId", .str "0xa4b1"),
     ("destination", .str destination),
     ("amount", .str amountStr),
     ("time", .num now)]
  let signed := signUsdTransferActionData action isMainnet
  { action := signed.1
  , nonce := lookupField signed.1 "time"
  , request := signed.2 }

/-- `ExchangeAPI.getAssetIndex` from src/rest/exchange.ts:68-80, with the
symbol-metadata snapshot of the external `SymbolConversion` collaborator as
a parameter (`snapshot symbol` is what `symbolConversion.getAssetIndex`
resolves to).  The fire-and-forget referrer timer scheduled on first use is
an external side effect with no bearing on the returned value. -/
def getAssetIndex (snapshot : String → Option Nat) (symbol : String) :
    Except JsError Nat :=
  match snapshot symbol with
  | none => .error (.unknownAsset symbol)
  | some index => .ok index

/-! ### Helper lemmas -/

theorem lookupField_setField_self (o : JObj) (k : String) (v : JVal) :
    lookupField (setField o k v) k = some v := by
  induction o with
  | nil => simp [setField, lookupField]
  | cons p rest ih =>
    by_cases h : p.1 = k
    · simp [setField, h, lookupField]
    · simp [setField, h, lookupField, ih]

theorem lookupField_setField_ne (o : JObj) (k k' : String) (v : JVal)
    (h : k' ≠ k) : lookupField (setField o k v) k' = lookupField o k' := by
  induction o with
  | nil => simp [setField, lookupField, Ne.symm h]
  | cons p rest ih =>
    by_cases hp : p.1 = k
    · subst hp
      simp [setField, lookupField, Ne.symm h]
    · simp only [setField, hp, if_false, lookupField]
      by_cases hp' : p.1 = k'
      · simp [hp']
      · simp [hp', ih]

theorem writeBytes_exact (a b c src : List Nat) (off : Nat)
    (h1 : a.length = off) (h2 : src.length = b.length) :
    writeBytes (a ++ b ++ c) off src = a ++ src ++ c := by
  have ht : (a ++ b ++ c).take off = a := by
    rw [List.append_assoc]; exact List.take_left' h1
  have hd : (a ++ b ++ c).drop (off + src.length) = c :=
    List.drop_left' (by simp [h1]; omega)
  unfold writeBytes
  rw [ht, hd, List.append_assoc]

/-! ### Claim theorems -/

unseal Rat.mul Rat.add Rat.sub Rat.inv

/-- C9: for every symbol absent from the current metadata snapshot,
`getAssetIndex` fails with the unknown-asset error and never returns any
index (in particular not a default such as 0); for every symbol present it
returns that symbol's index. -/
theorem getAssetIndex_spec (snapshot : String → Option Nat) (symbol : String) :
    (snapshot symbol = none →
      getAssetIndex snapshot symbol = .error (.unknownAsset symbol)
      ∧ ∀ i : Nat, getAssetIndex snapshot symbol ≠ .ok i)
    ∧ (∀ i : Nat, snapshot symbol = some i →
      getAssetIndex snapshot symbol = .ok i) := by
  cases h : snapshot symbol <;> simp [getAssetIndex, h]

/-- Witness for C9 at a concrete snapshot: the unknown symbol fails, the
known one resolves to its index. -/
theorem getAssetIndex_spec_witness :
    getAssetIndex (fun s => if s = "ETH" then some 4 else none) "ZZZNOTREAL"
      = .error (.unknownAsset "ZZZNOTREAL")
    ∧ getAssetIndex (fun s => if s = "ETH" then some 4 else none) "ETH" = .ok 4 :=
  ⟨((getAssetIndex_spec (fun s => if s = "ETH" then some 4 else none)
      "ZZZNOTREAL").1 rfl).1,
   (getAssetIndex_spec (fun s => if s = "ETH" then some 4 else none)
      "ETH").2 4 rfl⟩

/-- C10: `signUserSignedAction` mutates the action in place before signing,
setting exactly `signatureChainId` (to `'0x66eee'`, overwriting whatever
was stored there) and `hyperliquidChain` (to the network name); every other
field reads back unchanged, and the message it signs is that same mutated
object. -/
theorem signUserSignedAction_frame (action : JObj)
    (payloadTypes : List (String × String)) (primaryType : String)
    (isMainnet : Bool) :
    lookupField (signUserSignedActionData action payloadTypes primaryType isMainnet).1
        "signatureChainId" = some (.str "0x66eee")
    ∧ lookupField (signUserSignedActionData action payloadTypes primaryType isMainnet).1
        "hyperliquidChain"
        = some (.str (if isMainnet then "Mainnet" else "Testnet"))
    ∧ (∀ k : String, k ≠ "signatureChainId" → k ≠ "hyperliquidChain" →
        lookupField (signUserSignedActionData action payloadTypes primaryType isMainnet).1 k
          = lookupField action k)
    ∧ (signUserSignedActionData action payloadTypes primaryType isMainnet).2.message
        = (signUserSignedActionData action payloadTypes primaryType isMainnet).1 := by
  refine ⟨?_, ?_, ?_, rfl⟩
  · rw [signUserSignedActionData]
    rw [lookupField_setField_ne _ _ _ _ (by decide), lookupField_setField_self]
  · rw [signUserSignedActionData]
    rw [lookupField_setField_self]
  · intro k hk1 hk2
    rw [signUserSignedActionData]
    rw [lookupField_setField_ne _ _ _ _ hk2, lookupField_setField_ne _ _ _ _ hk1]

/-- Witness for C10: a caller-stored `signatureChainId` is overwritten, the
chain name is stamped, and an unrelated field survives. -/
theorem signUserSignedAction_frame_witness :
    lookupField (signUserSignedActionData
        [("signatureChainId", .str "0xa4b1"), ("destination", .str "0xd")]
        usdSendPayloadTypes "HyperliquidTransaction:UsdSend" false).1
      "signatureChainId" = some (.str "0x66eee")
    ∧ lookupField (signUserSignedActionData
        [("signatureChainId", .str "0xa4b1"), ("destination", .str "0xd")]
        usdSendPayloadTypes "HyperliquidTransaction:UsdSend" false).1
      "destination"
      = lookupField [("signatureChainId", .str "0xa4b1"), ("destination", .str "0xd")]
          "destination" :=
  ⟨(signUserSignedAction_frame
      [("signatureChainId", .str "0xa4b1"), ("destination", .str "0xd")]
      usdSendPayloadTypes "HyperliquidTransaction:UsdSend" false).1,
   (signUserSignedAction_frame
      [("signatureChainId", .str "0xa4b1"), ("destination", .str "0xd")]
      usdSendPayloadTypes "HyperliquidTransaction:UsdSend" false).2.2.1
      "destination" (by decide) (by decide)⟩

/-- C3 counterexample: on testnet, the action `usdTransfer` submits carries
`signatureChainId = "0x66eee"` (the in-place mutation performed by the
signing path overwrites the `"0xa4b1"` initially stored), and the declared
payload type schema has four fields, not five — both contradicting the
claim. -/
theorem usdTransfer_claim_counterexample :
    lookupField (usdTransfer false "0x0000000000000000000000000000000000000001"
        "100" 1700000000000).action "signatureChainId"
      = some (.str "0x66eee")
    ∧ some (JVal.str "0x66eee") ≠ some (JVal.str "0xa4b1")
    ∧ usdSendPayloadTypes.length = 4 ∧ (4 : Nat) ≠ 5 := by
  refine ⟨rfl, ?_, rfl, by decide⟩
  intro h
  injection h with h'
  exact absurd (JVal.str.inj h') (by decide)

/-- C3 amended: `usdTransfer` on testnet submits an action stamped
`hyperliquidChain "Testnet"` whose `signatureChainId` ends up `"0x66eee"`
(overwritten during signing), signed under the
`HyperliquidTransaction:UsdSend` primary type with exactly the four declared
fields `hyperliquidChain`, `destination`, `amount`, `time` in that order;
the signed message is the submitted action itself and the submitted
payload's nonce equals the action's `time` field. -/
theorem usdTransfer_amended (destination amountStr : String) (now : Int) :
    lookupField (usdTransfer false destination amountStr now).action
        "hyperliquidChain" = some (.str "Testnet")
    ∧ lookupField (usdTransfer false destination amountStr now).action
        "signatureChainId" = some (.str "0x66eee")
    ∧ (usdTransfer false destination amountStr now).request.primaryType
        = "HyperliquidTransaction:UsdSend"
    ∧ (usdTransfer false destination amountStr now).request.types
        = [("HyperliquidTransaction:UsdSend",
            [("hyperliquidChain", "string"), ("destination", "string"),
             ("amount", "string"), ("time", "uint64")])]
    ∧ (usdTransfer false destination amountStr now).request.message
        = (usdTransfer false destination amountStr now).action
    ∧ (usdTransfer false destination amountStr now).nonce
        = lookupField (usdTransfer false destination amountStr now).action "time"
    ∧ (usdTransfer false destination amountStr now).nonce = some (.num now)
    ∧ lookupField (usdTransfer false destination amountStr now).action
        "destination" = some (.str destination)
    ∧ lookupField (usdTransfer false destination amountStr now).action
        "amount" = some (.str amountStr) :=
  ⟨rfl, rfl, rfl, rfl, rfl, rfl, rfl, rfl, rfl⟩

/-- C5 counterexample: `splitSig` performs no length validation — on the
6-character input `"0x1234"` (not a 65-byte signature) it does not fail but
returns a normal record, with a truncated `r`, an empty `s` and `v = NaN`. -/
theorem splitSig_claim_counterexample :
    splitSig "0x1234" = { r := "0x1234", s := "0x", v := none }
    ∧ ("0x1234" : String).length = 6 := ⟨rfl, rfl⟩

/-- C5 amended: `splitSig` never validates its input and never fails; on any
input too short to contain the `v` slice it still returns a normal `{r,s,v}`
record whose `v` is `NaN`. -/
theorem splitSig_short_input (sig : String) (h : sig.length ≤ 130) :
    (splitSig sig).v = none := by
  have hd : sig.toList.drop 130 = [] :=
    List.drop_eq_nil_of_le h
  show parseIntHex (jsSlice sig 130 132) = none
  rw [jsSlice, hd]
  rfl

/-- Witness for C5's amended theorem at a concrete short input. -/
theorem splitSig_short_input_witness : (splitSig "0xdead").v = none :=
  splitSig_short_input "0xdead" (by decide)

theorem actionHash_buffer_none (m : List Nat) (nonce : Nat) :
    writeBytes (writeBytes (writeBytes (List.replicate (m.length + 9) 0) 0 m)
        m.length (be8 nonce)) (m.length + 8) [0]
      = m ++ be8 nonce ++ [0] := by
  have h1 : writeBytes (List.replicate (m.length + 9) 0) 0 m
      = m ++ List.replicate 9 0 := by
    have e : List.replicate (m.length + 9) (0 : Nat)
        = [] ++ List.replicate m.length 0 ++ List.replicate 9 0 := by
      rw [List.replicate_add]; rfl
    rw [e]
    exact writeBytes_exact [] (List.replicate m.length 0) (List.replicate 9 0) m 0
      rfl (by simp)
  have h2 : writeBytes (m ++ List.replicate 9 0) m.length (be8 nonce)
      = m ++ be8 nonce ++ [0] := by
    have e : m ++ List.replicate 9 (0 : Nat)
        = m ++ List.replicate 8 0 ++ [0] := by
      have e0 : List.replicate 9 (0 : Nat) = List.replicate 8 0 ++ [0] := by decide
      rw [e0, ← List.append_assoc]
    rw [e]
    exact writeBytes_exact m (List.replicate 8 0) [0] (be8 nonce) m.length rfl
      (by simp [be8])
  have h3 : writeBytes (m ++ be8 nonce ++ [0]) (m.length + 8) [0]
      = m ++ be8 nonce ++ [0] := by
    have e : m ++ be8 nonce ++ [0] = (m ++ be8 nonce) ++ [0] ++ [] := by
      rw [List.append_assoc, List.append_nil]
    rw [e, writeBytes_exact (m ++ be8 nonce) [0] [] [0] (m.length + 8)
      (by simp [be8]) rfl, List.append_nil, List.append_assoc]
  rw [h1, h2, h3]

theorem actionHash_buffer_some (m va : List Nat) (nonce : Nat)
    (hva : va.length = 20) :
    writeBytes (writeBytes (writeBytes (writeBytes
        (List.replicate (m.length + 29) 0) 0 m)
        m.length (be8 nonce)) (m.length + 8) [1]) (m.length + 9) va
      = m ++ be8 nonce ++ 1 :: va := by
  have h1 : writeBytes (List.replicate (m.length + 29) 0) 0 m
      = m ++ List.replicate 29 0 := by
    have e : List.replicate (m.length + 29) (0 : Nat)
        = [] ++ List.replicate m.length 0 ++ List.replicate 29 0 := by
      rw [List.replicate_add]; rfl
    rw [e]
    exact writeBytes_exact [] (List.replicate m.length 0) (List.replicate 29 0) m 0
      rfl (by simp)
  have h2 : writeBytes (m ++ List.replicate 29 0) m.length (be8 nonce)
      = m ++ be8 nonce ++ List.replicate 21 0 := by
    have e : m ++ List.replicate 29 (0 : Nat)
        = m ++ List.replicate 8 0 ++ List.replicate 21 0 := by
      have e0 : List.replicate 29 (0 : Nat)
          = List.replicate 8 0 ++ List.replicate 21 0 := by decide
      rw [e0, ← List.append_assoc]
    rw [e]
    exact writeBytes_exact m (List.replicate 8 0) (List.replicate 21 0) (be8 nonce)
      m.length rfl (by simp [be8])
  have h3 : writeBytes (m ++ be8 nonce ++ List.replicate 21 0) (m.length + 8) [1]
      = (m ++ be8 nonce) ++ [1] ++ List.replicate 20 0 := by
    have e : m ++ be8 nonce ++ List.replicate 21 (0 : Nat)
        = (m ++ be8 nonce) ++ List.replicate 1 0 ++ List.replicate 20 0 := by
      have e0 : List.replicate 21 (0 : Nat)
          = List.replicate 1 0 ++ List.replicate 20 0 := by decide
      rw [e0, ← List.append_assoc]
    rw [e]
    exact writeBytes_exact (m ++ be8 nonce) (List.replicate 1 0) (List.replicate 20 0)
      [1] (m.length + 8) (by simp [be8]) (by simp)
  have h4 : writeBytes ((m ++ be8 nonce) ++ [1] ++ List.replicate 20 0)
      (m.length + 9) va = m ++ be8 nonce ++ 1 :: va := by
    have e : (m ++ be8 nonce) ++ [1] ++ List.replicate 20 (0 : Nat)
        = ((m ++ be8 nonce) ++ [1]) ++ List.replicate 20 0 ++ [] := by
      rw [List.append_nil]
    rw [e, writeBytes_exact ((m ++ be8 nonce) ++ [1]) (List.replicate 20 0) [] va
      (m.length + 9) (by simp [be8]) (by simp [hva]), List.append_nil,
      List.append_assoc]
    rfl
  rw [h1, h2, h3, h4]

theorem be8_length (nonce : Nat) : (be8 nonce).length = 8 := rfl

theorem be8_beVal (nonce : Nat) (hn : nonce < 2 ^ 64) :
    beVal (be8 nonce) = nonce := by
  simp only [beVal, be8, List.foldl]
  omega

/-- C1: `actionHash` is the Keccac-style digest (the external `keccak256`)
of the msgpack serialization of the action, followed by the nonce as 8
big-endian bytes, followed by a marker byte (0 without vault address, 1
with), followed, when present, by the vault address's 20 raw bytes; the
hashed buffer is exactly `len(serialized) + 9` bytes (no vault) or
`len(serialized) + 29` bytes (vault), and the digest has 32 bytes. -/
theorem actionHash_spec {α : Type} (encode : α → List Nat)
    (keccak256 : List Nat → List Nat) (action : α)
    (vaultAddress : Option (List Nat)) (nonce : Nat)
    (hk : ∀ bs, (keccak256 bs).length = 32)
    (hv : ∀ va ∈ vaultAddress, va.length = 20)
    (hn : nonce < 2 ^ 64) :
    actionHash encode keccak256 action vaultAddress nonce
      = keccak256 (encode action ++ be8 nonce ++
          (match vaultAddress with | none => [0] | some va => 1 :: va))
    ∧ (be8 nonce).length = 8
    ∧ beVal (be8 nonce) = nonce
    ∧ (encode action ++ be8 nonce ++
        (match vaultAddress with | none => [0] | some va => 1 :: va)).length
      = (encode action).length + (if vaultAddress.isNone then 9 else 29)
    ∧ (actionHash encode keccak256 action vaultAddress nonce).length = 32 := by
  cases vaultAddress with
  | none =>
    have hbuf : actionHash encode keccak256 action none nonce
        = keccak256 (encode action ++ be8 nonce ++ [0]) := by
      show keccak256 (writeBytes (writeBytes (writeBytes
          (List.replicate ((encode action).length + 9) 0) 0 (encode action))
          (encode action).length (be8 nonce)) ((encode action).length + 8) [0]) = _
      rw [actionHash_buffer_none]
    refine ⟨hbuf, be8_length nonce, be8_beVal nonce hn, ?_, ?_⟩
    · simp [be8_length]
    · rw [hbuf]; exact hk _
  | some va =>
    have h20 : va.length = 20 := hv va rfl
    have hbuf : actionHash encode keccak256 action (some va) nonce
        = keccak256 (encode action ++ be8 nonce ++ 1 :: va) := by
      show keccak256 (writeBytes (writeBytes (writeBytes (writeBytes
          (List.replicate ((encode action).length + 29) 0) 0 (encode action))
          (encode action).length (be8 nonce)) ((encode action).length + 8) [1])
          ((encode action).length + 9) va) = _
      rw [actionHash_buffer_some (encode action) va nonce h20]
    refine ⟨hbuf, be8_length nonce, be8_beVal nonce hn, ?_, ?_⟩
    · simp [be8_length, h20]
    · rw [hbuf]; exact hk _

/-- Witness for C1 at a concrete serializer, hash, action, vault address and
nonce. -/
theorem actionHash_spec_witness :
    actionHash (fun _ : Unit => [1, 2, 3]) (fun _ => List.replicate 32 0) ()
        (some (List.replicate 20 7)) 1700000000000
      = List.replicate 32 0
    ∧ beVal (be8 1700000000000) = 1700000000000 := by
  have h := actionHash_spec (fun _ : Unit => [1, 2, 3])
    (fun _ => List.replicate 32 0) () (some (List.replicate 20 7)) 1700000000000
    (fun bs => by simp) (by simp) (by norm_num)
  exact ⟨h.1, h.2.2.1⟩

/-- C4: `signL1Action` signs, through the typed-data capability, the
phantom-agent message whose `source` is `'a'` on mainnet and `'b'` on
testnet and whose `connectionId` is the 32-byte action digest, under the
fixed domain `Exchange`/`1`/`1337`/zero contract, with the single-entry
type schema `Agent: [source: string, connectionId: bytes32]` and primary
type `Agent`. -/
theorem signL1Action_spec {α : Type} (signTypedData : AgentSignRequest → String)
    (encode : α → List Nat) (keccak256 : List Nat → List Nat) (action : α)
    (activePool : Option (List Nat)) (nonce : Nat) (isMainnet : Bool)
    (hk : ∀ bs, (keccak256 bs).length = 32) :
    (signL1ActionData encode keccak256 action activePool nonce isMainnet).domain
      = { name := "Exchange", version := "1", chainId := 1337
        , verifyingContract := "0x0000000000000000000000000000000000000000" }
    ∧ (signL1ActionData encode keccak256 action activePool nonce isMainnet).types
      = [("Agent", [("source", "string"), ("connectionId", "bytes32")])]
    ∧ (signL1ActionData encode keccak256 action activePool nonce isMainnet).primaryType
      = "Agent"
    ∧ (signL1ActionData encode keccak256 action activePool nonce isMainnet).message
      = { source := if isMainnet then "a" else "b"
        , connectionId := actionHash encode keccak256 action activePool nonce }
    ∧ (signL1ActionData encode keccak256 action activePool nonce
        isMainnet).message.connectionId.length = 32
    ∧ signL1Action signTypedData encode keccak256 action activePool nonce isMainnet
      = splitSig (signTypedData
          (signL1ActionData encode keccak256 action activePool nonce isMainnet)) :=
  ⟨rfl, rfl, rfl, rfl, hk _, rfl⟩

/-- Witness for C4 at a concrete signer, serializer and hash. -/
theorem signL1Action_spec_witness :
    (signL1ActionData (fun _ : Unit => [1]) (fun _ => List.replicate 32 0)
        () none 1 false).primaryType = "Agent"
    ∧ (signL1ActionData (fun _ : Unit => [1]) (fun _ => List.replicate 32 0)
        () none 1 false).message.source = "b"
    ∧ (signL1ActionData (fun _ : Unit => [1]) (fun _ => List.replicate 32 0)
        () none 1 false).message.connectionId.length = 32 := by
  have h := signL1Action_spec (fun _ => "0x00") (fun _ : Unit => [1])
    (fun _ => List.replicate 32 0) () none 1 false (fun bs => by simp)
  refine ⟨h.2.2.1, ?_, h.2.2.2.2.1⟩
  rw [h.2.2.2.1]
  rfl

/-- C7: `orderTypeToWire` passes a present `limit` sub-object through
unchanged; re-encodes a `trigger`'s price through the numeric canonicalizer
`floatToWire` while passing `isMarket` and the `tpsl` tag through; and
fails with the invalid-order-type error on every other shape. -/
theorem orderTypeToWire_spec (ot : OrderType) :
    (∀ l, ot.limit = some l →
      orderTypeToWire ot = .ok { limit := some l, trigger := none })
    ∧ (ot.limit = none → ∀ t, ot.trigger = some t →
      orderTypeToWire ot = (floatToWire t.triggerPx).map (fun px =>
        { limit := none
        , trigger := some { isMarket := t.isMarket, triggerPx := px, tpsl := t.tpsl } }))
    ∧ (ot.limit = none → ot.trigger = none →
      orderTypeToWire ot = .error .invalidOrderType) := by
  obtain ⟨lim, trig⟩ := ot
  refine ⟨fun l hl => ?_, fun hl t ht => ?_, fun hl ht => ?_⟩
  · simp only at hl
    subst hl
    rfl
  · simp only at hl ht
    subst hl; subst ht
    rfl
  · simp only at hl ht
    subst hl; subst ht
    rfl

/-- Witness for C7: the three shapes at concrete inputs (the canonicalized
trigger price of `1` evaluates to `"1"`). -/
theorem orderTypeToWire_spec_witness :
    orderTypeToWire { limit := some { tif := "Gtc" }, trigger := none }
      = .ok { limit := some { tif := "Gtc" }, trigger := none }
    ∧ orderTypeToWire { limit := none, trigger := some { isMarket := true, triggerPx := 1, tpsl := "tp" } }
      = .ok { limit := none, trigger := some { isMarket := true, triggerPx := "1", tpsl := "tp" } }
    ∧ orderTypeToWire { limit := none, trigger := none }
      = .error .invalidOrderType := by
  refine ⟨(orderTypeToWire_spec _).1 { tif := "Gtc" } rfl, ?_,
    (orderTypeToWire_spec _).2.2 rfl rfl⟩
  rw [(orderTypeToWire_spec
    { limit := none, trigger := some { isMarket := true, triggerPx := 1, tpsl := "tp" } }).2.1
    rfl { isMarket := true, triggerPx := 1, tpsl := "tp" } rfl]
  rfl

theorem flatMap_pair_take : ∀ (bs : List Nat) (k : Nat),
    (bs.flatMap byteHexPair).take (2 * k) = (bs.take k).flatMap byteHexPair := by
  intro bs
  induction bs with
  | nil => intro k; simp
  | cons b bs ih =>
    intro k
    cases k with
    | zero => simp
    | succ k =>
      have h2 : 2 * (k + 1) = 2 * k + 1 + 1 := by omega
      simp only [List.flatMap_cons, byteHexPair, h2, List.cons_append,
        List.nil_append, List.take_succ_cons, ih k]

theorem flatMap_pair_drop : ∀ (bs : List Nat) (k : Nat),
    (bs.flatMap byteHexPair).drop (2 * k) = (bs.drop k).flatMap byteHexPair := by
  intro bs
  induction bs with
  | nil => intro k; simp
  | cons b bs ih =>
    intro k
    cases k with
    | zero => simp
    | succ k =>
      have h2 : 2 * (k + 1) = 2 * k + 1 + 1 := by omega
      simp only [List.flatMap_cons, byteHexPair, h2, List.cons_append,
        List.nil_append, List.drop_succ_cons, ih k]

theorem hexVal_hexDigitChar : ∀ n : Nat, n < 16 →
    hexVal? (hexDigitChar n) = some n := by decide

theorem parseIntHex_pair (b : Nat) (hb : b < 256) :
    parseIntHex (String.mk (byteHexPair b)) = some b := by
  have h1 : hexVal? (hexDigitChar (b / 16 % 16)) = some (b / 16 % 16) :=
    hexVal_hexDigitChar _ (Nat.mod_lt _ (by omega))
  have h2 : hexVal? (hexDigitChar (b % 16)) = some (b % 16) :=
    hexVal_hexDigitChar _ (Nat.mod_lt _ (by omega))
  simp only [parseIntHex, byteHexPair, String.toList, List.takeWhile, h1, h2,
    Option.isSome_some]
  simp only [List.isEmpty, List.foldl]
  simp [h1, h2]
  omega

/-- C6: for every 65-byte signature rendered in hex, `splitSig` returns `r`
equal to bytes [0,32), `s` equal to bytes [32,64), and `v` equal to byte 64
as an unsigned integer with no normalization; `r` and `s` carry 32 bytes
each and concatenating the three parts reconstructs the original 65
bytes. -/
theorem splitSig_spec (bytes : List Nat) (h65 : bytes.length = 65)
    (hb : ∀ b ∈ bytes, b < 256) :
    splitSig ("0x" ++ bytesToHex bytes)
      = { r := "0x" ++ bytesToHex (bytes.take 32)
        , s := "0x" ++ bytesToHex ((bytes.drop 32).take 32)
        , v := some (bytes.getD 64 0) }
    ∧ (bytes.take 32).length = 32
    ∧ ((bytes.drop 32).take 32).length = 32
    ∧ bytes.getD 64 0 < 256
    ∧ bytes.take 32 ++ (bytes.drop 32).take 32 ++ [bytes.getD 64 0] = bytes := by
  have h64 : 64 < bytes.length := by omega
  have hgetD : bytes.getD 64 0 = bytes[64] := by
    rw [List.getD_eq_getElem?_getD, List.getElem?_eq_getElem h64, Option.getD_some]
  have hdrop64 : bytes.drop 64 = [bytes.getD 64 0] := by
    rw [List.drop_eq_getElem_cons h64, List.drop_eq_nil_of_le (by omega), hgetD]
  have hvlt : bytes.getD 64 0 < 256 := hb _ (hgetD ▸ List.getElem_mem h64)
  have hsig : ("0x" ++ bytesToHex bytes).toList
      = '0' :: 'x' :: bytes.flatMap byteHexPair := rfl
  have hr : jsSlice ("0x" ++ bytesToHex bytes) 2 66
      = bytesToHex (bytes.take 32) := by
    rw [jsSlice, hsig]
    show String.mk ((bytes.flatMap byteHexPair).take 64) = _
    rw [show (64 : Nat) = 2 * 32 from rfl, flatMap_pair_take]
    rfl
  have hs : jsSlice ("0x" ++ bytesToHex bytes) 66 130
      = bytesToHex ((bytes.drop 32).take 32) := by
    rw [jsSlice, hsig]
    show String.mk (((bytes.flatMap byteHexPair).drop 64).take 64) = _
    rw [show (64 : Nat) = 2 * 32 from rfl, flatMap_pair_drop, flatMap_pair_take]
    rfl
  have hv : jsSlice ("0x" ++ bytesToHex bytes) 130 132
      = String.mk (byteHexPair (bytes.getD 64 0)) := by
    rw [jsSlice, hsig]
    show String.mk (((bytes.flatMap byteHexPair).drop 128).take 2) = _
    rw [show (128 : Nat) = 2 * 64 from rfl, flatMap_pair_drop, hdrop64]
    rfl
  refine ⟨?_, by simp [h65], by simp [h65], hvlt, ?_⟩
  · show Signature.mk _ _ _ = _
    rw [hr, hs, hv, parseIntHex_pair _ hvlt]
  · have ht : bytes.take 64 = bytes.take 32 ++ (bytes.drop 32).take 32 := by
      rw [show (64 : Nat) = 32 + 32 from rfl]
      exact List.take_add bytes 32 32
    calc bytes.take 32 ++ (bytes.drop 32).take 32 ++ [bytes.getD 64 0]
        = bytes.take 64 ++ bytes.drop 64 := by
          rw [ht, hdrop64, List.append_assoc]
      _ = bytes := List.take_append_drop 64 bytes

/-- Witness for C6 at a concrete 65-byte signature. -/
theorem splitSig_spec_witness :
    splitSig ("0x" ++ bytesToHex ((List.range 65).map (fun i => i + 10)))
      = { r := "0x" ++ bytesToHex (((List.range 65).map (fun i => i + 10)).take 32)
        , s := "0x" ++ bytesToHex ((((List.range 65).map (fun i => i + 10)).drop 32).take 32)
        , v := some 74 }
    ∧ ((List.range 65).map (fun i => i + 10)).take 32
        ++ (((List.range 65).map (fun i => i + 10)).drop 32).take 32 ++ [74]
      = (List.range 65).map (fun i => i + 10) := by
  have h := splitSig_spec ((List.range 65).map (fun i => i + 10)) (by decide)
    (by decide)
  have h74 : ((List.range 65).map (fun i => i + 10)).getD 64 0 = 74 := by decide
  rw [h74] at h
  exact ⟨h.1, h.2.2.2.2⟩

/-- C8: a wire order built from an order without `cloid` carries exactly the
keys `a b p s r t` and no `c` binding; an action built without a `builder`
argument carries exactly `type`, `orders`, `grouping` and no `builder`
binding; an absent `grouping` argument defaults to `"na"`. -/
theorem orderToWire_omission_spec :
    (∀ (order : Order) (asset : Nat) (w : JObj), order.cloid = none →
      orderToWire order asset = .ok w →
      objKeys w = ["a", "b", "p", "s", "r", "t"] ∧ "c" ∉ objKeys w)
    ∧ (∀ (orders : List JObj) (grouping : Option String),
      objKeys (orderWireToAction orders grouping none)
        = ["type", "orders", "grouping"]
      ∧ "builder" ∉ objKeys (orderWireToAction orders grouping none))
    ∧ (∀ (orders : List JObj) (builder : Option JObj),
      lookupField (orderWireToAction orders none builder) "grouping"
        = some (.str "na")) := by
  refine ⟨?_, ?_, ?_⟩
  · intro order asset w hcloid hok
    rw [orderToWire] at hok
    cases hp : floatToWire order.limit_px with
    | error e => rw [hp] at hok; exact absurd hok (by simp [Bind.bind, Except.bind])
    | ok p =>
      rw [hp] at hok
      cases hs : floatToWire order.sz with
      | error e => rw [hs] at hok; exact absurd hok (by simp [Bind.bind, Except.bind])
      | ok s =>
        rw [hs] at hok
        cases ht : orderTypeToWire order.order_type with
        | error e => rw [ht] at hok; exact absurd hok (by simp [Bind.bind, Except.bind])
        | ok t =>
          rw [ht, hcloid] at hok
          simp only [Bind.bind, Except.bind, Except.ok.injEq, pure, Except.pure] at hok
          subst hok
          refine ⟨rfl, ?_⟩
          show "c" ∉ (["a", "b", "p", "s", "r", "t"] : List String)
          decide
  · intro orders grouping
    refine ⟨rfl, ?_⟩
    show "builder" ∉ (["type", "orders", "grouping"] : List String)
    decide
  · intro orders builder
    rfl

/-- Witness for C8 at a concrete cloid-less order and builder-less action. -/
theorem orderToWire_omission_spec_witness :
    "c" ∉ objKeys [("a", JVal.num 4), ("b", JVal.bool true), ("p", JVal.str "1"),
        ("s", JVal.str "2"), ("r", JVal.bool false),
        ("t", JVal.obj [("limit", JVal.obj [("tif", JVal.str "Gtc")])])]
    ∧ "builder" ∉ objKeys (orderWireToAction [] (some "na") none)
    ∧ lookupField (orderWireToAction [] none none) "grouping"
      = some (.str "na") := by
  have h1 := orderToWire_omission_spec.1
    { coin := "ETH", is_buy := true, limit_px := 1, sz := 2, reduce_only := false
    , order_type := { limit := some { tif := "Gtc" }, trigger := none }
    , cloid := none }
    4
    [("a", JVal.num 4), ("b", JVal.bool true), ("p", JVal.str "1"),
     ("s", JVal.str "2"), ("r", JVal.bool false),
     ("t", JVal.obj [("limit", JVal.obj [("tif", JVal.str "Gtc")])])]
    rfl rfl
  exact ⟨h1.2, (orderToWire_omission_spec.2.1 [] (some "na")).2,
    orderToWire_omission_spec.2.2 [] none⟩

end HL
